import Mathlib

/-!
Verification of the request-validation core of the `fisher` webhook receiver.

Strings are modelled as lists of characters (`Str`), matching Rust's
`str` viewed as a sequence of chars; hash maps (`headers`, `params`) are
modelled as association lists with first-match lookup.  Machine integers
inside SHA-1 are natural numbers reduced modulo `2 ^ 32` explicitly.
-/

set_option maxRecDepth 20000

/-- Rust string slices, modelled as lists of characters. -/
abbrev Str := List Char

/-- Embed a Lean string literal into the model's string type. -/
def strL (s : String) : Str := s.data

/-- First-match lookup in an association list (models `HashMap::get`). -/
def alookup {α : Type} : List (Str × α) → Str → Option α
  | [], _ => none
  | (k, v) :: rest, key => if k = key then some v else alookup rest key

/-- Lookup with a default (models indexing `map[key]` after a presence check). -/
def alookupD {α : Type} (l : List (Str × α)) (key : Str) (d : α) : α :=
  (alookup l key).getD d

/-- Split a character list at every occurrence of `c`, returning the first
segment and the remaining segments (models Rust `str::split(c)`; the full
split is `f :: r` for `(f, r) = splitOnChar c l`). -/
def splitOnChar (c : Char) : Str → Str × List Str
  | [] => ([], [])
  | x :: xs =>
    let (f, r) := splitOnChar c xs
    if x = c then ([], f :: r) else (x :: f, r)

/-- Join segments with the separator `c` between them (models
`Vec::join` on strings with a one-character separator). -/
def joinChar (c : Char) : List Str → Str
  | [] => []
  | [x] => x
  | x :: y :: ys => x ++ c :: joinChar c (y :: ys)

/-- Value of one hexadecimal digit, case-insensitive. -/
def hexDigitVal (c : Char) : Option Nat :=
  if '0' ≤ c ∧ c ≤ '9' then some (c.toNat - '0'.toNat)
  else if 'a' ≤ c ∧ c ≤ 'f' then some (c.toNat - 'a'.toNat + 10)
  else if 'A' ≤ c ∧ c ≤ 'F' then some (c.toNat - 'A'.toNat + 10)
  else none

/-- Modelled from the spec: `utils::from_hex` (the file `src/utils.rs` is not
among the sources); the spec says the signature's hex part is hex-decoded and
that non-hex input fails.  Standard semantics: an even-length string of hex
digits decodes to its byte sequence, anything else fails. -/
def from_hex : Str → Option (List Nat)
  | [] => some []
  | [_] => none
  | a :: b :: rest => do
    let hi ← hexDigitVal a
    let lo ← hexDigitVal b
    let tail ← from_hex rest
    some ((hi * 16 + lo) :: tail)

/-- UTF-8 encoding of one character, as bytes. -/
def utf8Char (c : Char) : List Nat :=
  let n := c.toNat
  if n < 0x80 then [n]
  else if n < 0x800 then [0xC0 + n / 64, 0x80 + n % 64]
  else if n < 0x10000 then
    [0xE0 + n / 4096, 0x80 + n / 64 % 64, 0x80 + n % 64]
  else
    [0xF0 + n / 262144, 0x80 + n / 4096 % 64, 0x80 + n / 64 % 64, 0x80 + n % 64]

/-- UTF-8 bytes of a string (models Rust `str::as_bytes`). -/
def strBytes (s : Str) : List Nat := (s.map utf8Char).flatten

/-! ### SHA-1 and HMAC-SHA1 (the `sha1` and `hmac` crates used by the GitHub
provider), over byte lists, with 32-bit words as naturals mod `2 ^ 32`. -/

/-- 32-bit modular addition. -/
def add32 (a b : Nat) : Nat := (a + b) % 4294967296

/-- 32-bit left rotation by `n` (for `n ≤ 32`, inputs `< 2 ^ 32`). -/
def rotl32 (x n : Nat) : Nat :=
  (x % 2 ^ (32 - n)) * 2 ^ n + x / 2 ^ (32 - n)

/-- Bitwise complement within 32 bits. -/
def not32 (x : Nat) : Nat := Nat.xor x 4294967295

/-- Big-endian bytes of a 32-bit word. -/
def toBE32 (w : Nat) : List Nat :=
  [w / 16777216 % 256, w / 65536 % 256, w / 256 % 256, w % 256]

/-- Group bytes into big-endian 32-bit words (input length divisible by 4). -/
def bytesToWords : List Nat → List Nat
  | a :: b :: c :: d :: rest =>
    (((a * 256 + b) * 256 + c) * 256 + d) :: bytesToWords rest
  | _ => []

/-- SHA-1 message padding: append `0x80`, zeros to 56 mod 64, then the
bit length as 8 big-endian bytes. -/
def sha1pad (msg : List Nat) : List Nat :=
  let zeros := (119 - msg.length % 64) % 64
  let bitLen := msg.length * 8
  msg ++ 0x80 :: List.replicate zeros 0 ++
    [bitLen / 2 ^ 56 % 256, bitLen / 2 ^ 48 % 256, bitLen / 2 ^ 40 % 256,
     bitLen / 2 ^ 32 % 256, bitLen / 2 ^ 24 % 256, bitLen / 2 ^ 16 % 256,
     bitLen / 2 ^ 8 % 256, bitLen % 256]

/-- Extend the 16 block words to 80: `acc` holds the words produced so far in
reverse order, `count` is the number of words still to produce. -/
def sha1Extend (acc : List Nat) : Nat → List Nat
  | 0 => acc.reverse
  | n + 1 =>
    let w := rotl32 (Nat.xor (Nat.xor (acc.getD 2 0) (acc.getD 7 0))
                             (Nat.xor (acc.getD 13 0) (acc.getD 15 0))) 1
    sha1Extend (w :: acc) n

/-- One SHA-1 round: `i` is the round index, `w` the schedule word. -/
def sha1Round (st : Nat × Nat × Nat × Nat × Nat) (iw : Nat × Nat) :
    Nat × Nat × Nat × Nat × Nat :=
  let (a, b, c, d, e) := st
  let (i, w) := iw
  let f :=
    if i < 20 then Nat.lor (Nat.land b c) (Nat.land (not32 b) d)
    else if i < 40 then Nat.xor (Nat.xor b c) d
    else if i < 60 then Nat.lor (Nat.lor (Nat.land b c) (Nat.land b d)) (Nat.land c d)
    else Nat.xor (Nat.xor b c) d
  let k :=
    if i < 20 then 0x5A827999
    else if i < 40 then 0x6ED9EBA1
    else if i < 60 then 0x8F1BBCDC
    else 0xCA62C1D6
  let temp := add32 (add32 (add32 (add32 (rotl32 a 5) f) e) k) w
  (temp, a, rotl32 b 30, c, d)

/-- Compress one 16-word block into the running hash state. -/
def sha1Compress (h : Nat × Nat × Nat × Nat × Nat) (block : List Nat) :
    Nat × Nat × Nat × Nat × Nat :=
  let ws := sha1Extend block.reverse 64
  let (h0, h1, h2, h3, h4) := h
  let (a, b, c, d, e) :=
    ((List.range 80).zip ws).foldl sha1Round (h0, h1, h2, h3, h4)
  (add32 h0 a, add32 h1 b, add32 h2 c, add32 h3 d, add32 h4 e)

/-- Process the padded message, 16 words at a time. -/
def sha1Process (h : Nat × Nat × Nat × Nat × Nat) :
    List Nat → Nat × Nat × Nat × Nat × Nat
  | w0 :: w1 :: w2 :: w3 :: w4 :: w5 :: w6 :: w7 ::
    w8 :: w9 :: w10 :: w11 :: w12 :: w13 :: w14 :: w15 :: rest =>
    sha1Process
      (sha1Compress h [w0, w1, w2, w3, w4, w5, w6, w7,
                       w8, w9, w10, w11, w12, w13, w14, w15]) rest
  | _ => h

/-- SHA-1 digest of a byte list, as 20 bytes. -/
def sha1 (msg : List Nat) : List Nat :=
  let (h0, h1, h2, h3, h4) :=
    sha1Process (0x67452301, 0xEFCDAB89, 0x98BADCFE, 0x10325476, 0xC3D2E1F0)
      (bytesToWords (sha1pad msg))
  toBE32 h0 ++ toBE32 h1 ++ toBE32 h2 ++ toBE32 h3 ++ toBE32 h4

/-- HMAC-SHA1 with block size 64 (the `Hmac<Sha1>` type in the source). -/
def hmacSha1 (key msg : List Nat) : List Nat :=
  let key := if 64 < key.length then sha1 key else key
  let key := key ++ List.replicate (64 - key.length) 0
  let ipad := key.map fun b => Nat.xor b 0x36
  let opad := key.map fun b => Nat.xor b 0x5c
  sha1 (opad ++ sha1 (ipad ++ msg))

/-! ### JSON (model of `serde_json` parsing, used to check body validity,
to read the push-event fields, and to parse provider configurations). -/

/-- JSON values.  Numbers keep their textual parts (sign, integer digits,
fraction digits, exponent); the claims never compare numeric values. -/
inductive Json where
  | null : Json
  | bool (b : Bool) : Json
  | num (neg : Bool) (intPart : List Nat) (frac : List Nat)
        (expNeg : Bool) (ex : List Nat) : Json
  | str (s : Str) : Json
  | arr (elems : List Json) : Json
  | obj (members : List (Str × Json)) : Json

/-- JSON whitespace: space, tab, line feed, carriage return. -/
def isJsonWs (c : Char) : Bool :=
  c = ' ' ∨ c = '\t' ∨ c = '\n' ∨ c = '\r'

/-- Skip leading JSON whitespace. -/
def skipWs (s : Str) : Str := s.dropWhile isJsonWs

/-- Decimal digit test. -/
def isDigitCh (c : Char) : Bool := '0' ≤ c ∧ c ≤ '9'

/-- Four hex digits after `\u` in a string escape. -/
def parseHex4 : Str → Option (Nat × Str)
  | a :: b :: c :: d :: rest => do
    let x ← hexDigitVal a
    let y ← hexDigitVal b
    let z ← hexDigitVal c
    let w ← hexDigitVal d
    some (((x * 16 + y) * 16 + z) * 16 + w, rest)
  | _ => none

/-- Parse the body of a JSON string after the opening quote, handling
escapes (including surrogate pairs) and rejecting raw control characters.
The first argument is fuel (any amount beyond the input length works). -/
def parseStringBody : Nat → Str → Option (Str × Str)
  | 0, _ => none
  | _, [] => none
  | _ + 1, '"' :: rest => some ([], rest)
  | fuel + 1, '\\' :: esc =>
    match esc with
    | '"' :: rest => do let (s, r) ← parseStringBody fuel rest; some ('"' :: s, r)
    | '\\' :: rest => do let (s, r) ← parseStringBody fuel rest; some ('\\' :: s, r)
    | '/' :: rest => do let (s, r) ← parseStringBody fuel rest; some ('/' :: s, r)
    | 'b' :: rest => do let (s, r) ← parseStringBody fuel rest; some ('\x08' :: s, r)
    | 'f' :: rest => do let (s, r) ← parseStringBody fuel rest; some ('\x0c' :: s, r)
    | 'n' :: rest => do let (s, r) ← parseStringBody fuel rest; some ('\n' :: s, r)
    | 'r' :: rest => do let (s, r) ← parseStringBody fuel rest; some ('\r' :: s, r)
    | 't' :: rest => do let (s, r) ← parseStringBody fuel rest; some ('\t' :: s, r)
    | 'u' :: rest =>
      match parseHex4 rest with
      | none => none
      | some (n, rest) =>
        if 0xD800 ≤ n ∧ n < 0xDC00 then
          -- high surrogate: a low surrogate escape must follow
          match rest with
          | '\\' :: 'u' :: rest2 =>
            match parseHex4 rest2 with
            | none => none
            | some (m, rest3) =>
              if 0xDC00 ≤ m ∧ m < 0xE000 then do
                let cp := 0x10000 + (n - 0xD800) * 0x400 + (m - 0xDC00)
                let (s, r) ← parseStringBody fuel rest3
                some (Char.ofNat cp :: s, r)
              else none
          | _ => none
        else if 0xDC00 ≤ n ∧ n < 0xE000 then none
        else do
          let (s, r) ← parseStringBody fuel rest
          some (Char.ofNat n :: s, r)
    | _ => none
  | fuel + 1, c :: rest =>
    if c.toNat < 0x20 then none
    else do let (s, r) ← parseStringBody fuel rest; some (c :: s, r)

/-- Parse a JSON string body with enough fuel for the whole input. -/
def parseString (s : Str) : Option (Str × Str) :=
  parseStringBody (s.length + 1) s

/-- Parse a JSON number starting at the current position (grammar:
`-? (0 | [1-9][0-9]*) (. [0-9]+)? ([eE] [+-]? [0-9]+)?`). -/
def parseNumber (s : Str) : Option (Json × Str) := do
  let (neg, s) := match s with
    | '-' :: rest => (true, rest)
    | _ => (false, s)
  let intDigits := s.takeWhile isDigitCh
  let s1 := s.dropWhile isDigitCh
  if intDigits = [] then none else
  if intDigits.length > 1 ∧ intDigits.headD '0' = '0' then none else
  let (frac, s2) ← match s1 with
    | '.' :: rest =>
      let ds := rest.takeWhile isDigitCh
      if ds = [] then none else some (ds, rest.dropWhile isDigitCh)
    | _ => some ([], s1)
  let (expNeg, ex, s3) ← match s2 with
    | 'e' :: rest | 'E' :: rest =>
      let (en, rest) := match rest with
        | '+' :: r => (false, r)
        | '-' :: r => (true, r)
        | _ => (false, rest)
      let ds := rest.takeWhile isDigitCh
      if ds = [] then none else some (en, ds, rest.dropWhile isDigitCh)
    | _ => some (false, [], s2)
  some (Json.num neg (intDigits.map fun c => c.toNat - 48)
          (frac.map fun c => c.toNat - 48) expNeg (ex.map fun c => c.toNat - 48),
        s3)

/-- What a parser step is asked to produce. -/
inductive PKind where
  | value : PKind
  | elems : PKind
  | members : PKind

/-- Result of a parser step. -/
inductive PRes where
  | v (j : Json) : PRes
  | vs (l : List Json) : PRes
  | ms (l : List (Str × Json)) : PRes

/-- Fuel-indexed JSON parser.  `PKind.value` parses one value after optional
whitespace; `PKind.elems` parses `value (, value)* ]`; `PKind.members`
parses `"key" : value (, ...)* }`. -/
def parseJ : Nat → PKind → Str → Option (PRes × Str)
  | 0, _, _ => none
  | Nat.succ fuel, PKind.value, s =>
    match skipWs s with
    | 'n' :: 'u' :: 'l' :: 'l' :: rest => some (PRes.v Json.null, rest)
    | 't' :: 'r' :: 'u' :: 'e' :: rest => some (PRes.v (Json.bool true), rest)
    | 'f' :: 'a' :: 'l' :: 's' :: 'e' :: rest => some (PRes.v (Json.bool false), rest)
    | '"' :: rest =>
      match parseString rest with
      | some (str, rest) => some (PRes.v (Json.str str), rest)
      | none => none
    | '[' :: rest =>
      match skipWs rest with
      | ']' :: rest2 => some (PRes.v (Json.arr []), rest2)
      | rest2 =>
        match parseJ fuel PKind.elems rest2 with
        | some (PRes.vs l, rest3) => some (PRes.v (Json.arr l), rest3)
        | _ => none
    | '\x7b' :: rest =>
      match skipWs rest with
      | '\x7d' :: rest2 => some (PRes.v (Json.obj []), rest2)
      | rest2 =>
        match parseJ fuel PKind.members rest2 with
        | some (PRes.ms l, rest3) => some (PRes.v (Json.obj l), rest3)
        | _ => none
    | rest =>
      match parseNumber rest with
      | some (j, r) => some (PRes.v j, r)
      | none => none
  | Nat.succ fuel, PKind.elems, s =>
    match parseJ fuel PKind.value s with
    | some (PRes.v j, rest) =>
      (match skipWs rest with
       | ',' :: rest2 =>
         match parseJ fuel PKind.elems rest2 with
         | some (PRes.vs l, rest3) => some (PRes.vs (j :: l), rest3)
         | _ => none
       | ']' :: rest2 => some (PRes.vs [j], rest2)
       | _ => none)
    | _ => none
  | Nat.succ fuel, PKind.members, s =>
    match skipWs s with
    | '"' :: rest =>
      match parseString rest with
      | some (key, rest2) =>
        (match skipWs rest2 with
         | ':' :: rest3 =>
           match parseJ fuel PKind.value rest3 with
           | some (PRes.v j, rest4) =>
             (match skipWs rest4 with
              | ',' :: rest5 =>
                match parseJ fuel PKind.members rest5 with
                | some (PRes.ms l, rest6) => some (PRes.ms ((key, j) :: l), rest6)
                | _ => none
              | '\x7d' :: rest5 => some (PRes.ms ((key, j) :: []), rest5)
              | _ => none)
           | _ => none
         | _ => none)
      | none => none
    | _ => none

/-- Parse a whole string as one JSON value with only trailing whitespace
(models `serde_json::from_str::<serde_json::Value>`). -/
def parseJson (s : Str) : Option Json :=
  match parseJ (2 * s.length + 2) PKind.value s with
  | some (PRes.v j, rest) => if skipWs rest = [] then some j else none
  | _ => none

/-- `true` when the body parses as JSON (the providers' body check). -/
def jsonValid (s : Str) : Bool := (parseJson s).isSome

/-! ### IP addresses and the request model. -/

/-- Network addresses (Rust `std::net::IpAddr`). -/
inductive IpAddr where
  | v4 (a b c d : Nat) : IpAddr
  | v6 (segs : List Nat) : IpAddr
deriving DecidableEq

/-- One decimal octet of a dotted-quad address: digits only, at most three,
no leading zero, value at most 255. -/
def parseOctet (s : Str) : Option Nat :=
  if s ≠ [] ∧ s.all isDigitCh ∧ s.length ≤ 3 ∧ (s.length = 1 ∨ s.headD '0' ≠ '0') then
    let v := s.foldl (fun acc c => acc * 10 + (c.toNat - 48)) 0
    if v ≤ 255 then some v else none
  else none

/-- Modelled from the spec: textual parsing of a source address
(`std::net::IpAddr::from_str`, standard library).  Only the IPv4 dotted-quad
form is modelled; the claims' inputs are IPv4 or unparseable in both readings,
and every string accepted here is accepted by the standard library. -/
def ipFromStr (s : Str) : Option IpAddr :=
  let (f, r) := splitOnChar '.' s
  match f :: r with
  | [a, b, c, d] => do
    let a ← parseOctet a
    let b ← parseOctet b
    let c ← parseOctet c
    let d ← parseOctet d
    some (IpAddr.v4 a b c d)
  | _ => none

/-- The neutral HTTP request carrier (`web::WebRequest`): source address,
headers, query parameters and raw body. -/
structure WebRequest where
  source : IpAddr
  headers : List (Str × Str)
  params : List (Str × Str)
  body : Str
deriving DecidableEq

/-- A status event synthesized internally after a job finishes (the payload
is irrelevant to the claims; modelled from the spec as an opaque carrier). -/
structure StatusEvent where
  hookName : Str
deriving DecidableEq

/-- `requests::Request`: either a web request or a synthesized status event. -/
inductive Request where
  | web (r : WebRequest) : Request
  | status (s : StatusEvent) : Request
deriving DecidableEq

/-- `requests::RequestType`: the classification returned by `validate`. -/
inductive RequestType where
  | invalid : RequestType
  | ping : RequestType
  | executeHook : RequestType
deriving DecidableEq

/-- The accumulated environment of an `EnvBuilder`, in insertion order. -/
abbrev EnvBuilder := List (Str × Str)

/-- `EnvBuilder::add_env`. -/
def addEnv (b : EnvBuilder) (key value : Str) : EnvBuilder := b ++ [(key, value)]

/-- The error kinds reachable from the embedded operations. -/
inductive FisherError where
  | invalidConfig : FisherError
  | providerGitHubInvalidEventName (name : Str) : FisherError
  | providerNotFound (name : Str) : FisherError
deriving DecidableEq

instance {ε α : Type} [DecidableEq ε] [DecidableEq α] : DecidableEq (Except ε α) := fun a b =>
  match a, b with
  | Except.ok x, Except.ok y =>
    if h : x = y then isTrue (congrArg Except.ok h)
    else isFalse fun hh => h (Except.ok.inj hh)
  | Except.error x, Except.error y =>
    if h : x = y then isTrue (congrArg Except.error h)
    else isFalse fun hh => h (Except.error.inj hh)
  | Except.ok _, Except.error _ => isFalse fun hh => Except.noConfusion hh
  | Except.error _, Except.ok _ => isFalse fun hh => Except.noConfusion hh

/-! ### The GitHub provider (`providers/github.rs`). -/

/-- `GITHUB_EVENTS`: the fixed set of accepted GitHub event names. -/
def GITHUB_EVENTS : List Str :=
  [strL "commit_comment",
   strL "create",
   strL "delete",
   strL "deployment",
   strL "deployment_status",
   strL "fork",
   strL "gollum",
   strL "issue_comment",
   strL "issues",
   strL "label",
   strL "member",
   strL "membership",
   strL "milestone",
   strL "organization",
   strL "page_build",
   strL "project_card",
   strL "project_column",
   strL "project",
   strL "public",
   strL "pull_reques_review_comment",
   strL "pull_request_review",
   strL "pull_request",
   strL "push",
   strL "repository",
   strL "release",
   strL "status",
   strL "team",
   strL "team_add",
   strL "watch"]

/-- `GITHUB_HEADERS`: the headers a GitHub request must carry. -/
def GITHUB_HEADERS : List Str :=
  [strL "X-GitHub-Event", strL "X-Hub-Signature", strL "X-GitHub-Delivery"]

/-- The GitHub provider configuration (`struct GitHubProvider`). -/
structure GitHubProvider where
  secret : Option Str
  events : Option (List Str)
deriving DecidableEq

/-- `github::verify_signature`: split the raw signature at `=`, hex-decode
the part after the first `=`, require algorithm `sha1`, and compare the
HMAC-SHA1 of the payload keyed by the secret against the decoded bytes. -/
def verify_signature (secret payload raw_signature : Str) : Bool :=
  -- The signature must have a =
  if raw_signature.contains '=' = false then false
  else
    let (algorithm, restParts) := splitOnChar '=' raw_signature
    let hex_signature := joinChar '=' restParts
    -- Convert the signature from hex
    match from_hex hex_signature with
    | none => false
    | some signature =>
      -- Only SHA-1 is supported
      if algorithm ≠ strL "sha1" then false
      else
        -- Verify the HMAC signature
        decide (hmacSha1 (strBytes secret) (strBytes payload) = signature)

/-- `GitHubProvider::validate`, translated with the source's early returns. -/
def GitHubProvider.validate (p : GitHubProvider) (request : Request) : RequestType :=
  match request with
  | Request.status _ => RequestType.invalid
  | Request.web req =>
    -- Check if the correct headers are present
    if (GITHUB_HEADERS.all fun h => (alookup req.headers h).isSome) = false then
      RequestType.invalid
    else
      -- Check the signature only if a secret key was provided
      let sigOk := match p.secret with
        | some secret =>
          verify_signature secret req.body (alookupD req.headers (strL "X-Hub-Signature") [])
        | none => true
      if sigOk = false then RequestType.invalid
      else
        -- Check if the event is valid
        let event := alookupD req.headers (strL "X-GitHub-Event") []
        if (GITHUB_EVENTS.contains event || event = strL "ping" : Bool) = false then
          RequestType.invalid
        else
          -- Check if the event should be accepted
          let eventsOk := match p.events with
            | some events => (events.contains event || event = strL "ping" : Bool)
            | none => true
          if eventsOk = false then RequestType.invalid
          else
            -- Check if the JSON in the body is valid
            if jsonValid req.body = false then RequestType.invalid
            else if event = strL "ping" then RequestType.ping
            else RequestType.executeHook

/-- Deserialization of the borrowed `PushEvent` struct: the body must be a
JSON object with a string field `ref` and an object field `head_commit`
holding a string field `id`. -/
def parsePushEvent (body : Str) : Option (Str × Str) :=
  match parseJson body with
  | some (Json.obj members) =>
    match alookup members (strL "ref"), alookup members (strL "head_commit") with
    | some (Json.str r), some (Json.obj hc) =>
      match alookup hc (strL "id") with
      | some (Json.str i) => some (r, i)
      | _ => none
    | _, _ => none
  | _ => none

/-- `GitHubProvider::build_env`.  `none` models a panic on a missing header
index; `Except.error` models the `?` propagation of a body-parse failure. -/
def GitHubProvider.build_env (p : GitHubProvider) (r : Request) (b : EnvBuilder) :
    Option (Except Unit EnvBuilder) :=
  match r with
  | Request.status _ => some (Except.ok b)
  | Request.web req =>
    match alookup req.headers (strL "X-GitHub-Event"),
          alookup req.headers (strL "X-GitHub-Delivery") with
    | some event, some delivery =>
      let b := addEnv b (strL "EVENT") event
      let b := addEnv b (strL "DELIVERY_ID") delivery
      -- Add specific environment variables for the `push` event
      if ((p.events.map fun e => e.contains event).getD false) ∧ event = strL "push" then
        match parsePushEvent req.body with
        | some (gitRef, headId) =>
          some (Except.ok (addEnv (addEnv b (strL "PUSH_REF") gitRef) (strL "PUSH_HEAD") headId))
        | none => some (Except.error ())
      else
        some (Except.ok b)
    | _, _ => none

/-- Deserialization of the GitHub (and GitLab) provider configuration:
a JSON object whose optional `secret` field is a string and whose optional
`events` field is an array of strings; unknown fields are ignored and
`null` counts as an absent optional field. -/
def parseProviderConfig (s : Str) : Option (Option Str × Option (List Str)) :=
  match parseJson s with
  | some (Json.obj members) => do
    let secret ← match alookup members (strL "secret") with
      | none => some none
      | some Json.null => some none
      | some (Json.str x) => some (some x)
      | some _ => none
    let events ← match alookup members (strL "events") with
      | none => some none
      | some Json.null => some none
      | some (Json.arr l) =>
        let strs := l.map fun j => match j with | Json.str x => some x | _ => none
        if strs.all Option.isSome then some (some (strs.map fun o => o.getD []))
        else none
      | some _ => none
    some (secret, events)
  | _ => none

/-- `GitHubProvider::new`: parse the JSON configuration, then reject the
first configured event name outside `GITHUB_EVENTS`. -/
def GitHubProvider.new (input : Str) : Except FisherError GitHubProvider :=
  match parseProviderConfig input with
  | none => Except.error FisherError.invalidConfig
  | some (secret, events) =>
    let inst : GitHubProvider := ⟨secret, events⟩
    match events with
    | some evs =>
      match evs.find? fun e => (GITHUB_EVENTS.contains e) = false with
      | some bad => Except.error (FisherError.providerGitHubInvalidEventName bad)
      | none => Except.ok inst
    | none => Except.ok inst

/-! ### The GitLab provider (`providers/gitlab.rs`). -/

/-- `GITLAB_EVENTS`: the fixed set of GitLab event names allowed in config. -/
def GITLAB_EVENTS : List Str :=
  [strL "Push",
   strL "Tag Push",
   strL "Issue",
   strL "Note",
   strL "Merge Request",
   strL "Wiki Page",
   strL "Build",
   strL "Pipeline",
   strL "Confidential Issue"]

/-- `GITLAB_HEADERS`: the headers a GitLab request must carry. -/
def GITLAB_HEADERS : List Str := [strL "X-Gitlab-Event"]

/-- The GitLab provider configuration (`struct GitLabProvider`). -/
structure GitLabProvider where
  secret : Option Str
  events : Option (List Str)
deriving DecidableEq

/-- `gitlab::normalize_event_name`: when the input ends with `" Hook"`,
split from the right at the first space (`rsplitn(2, ' ')`) and keep the
part before it; otherwise return the input unchanged. -/
def normalize_event_name (input : Str) : Str :=
  -- Strip the ending " Hook"
  if (strL " Hook").isSuffixOf input then
    let rev := input.reverse
    ((rev.dropWhile fun c => c ≠ ' ').drop 1).reverse
  else
    input

/-- `GitLabProvider::validate`, translated with the source's early returns. -/
def GitLabProvider.validate (p : GitLabProvider) (request : Request) : RequestType :=
  match request with
  | Request.status _ => RequestType.invalid
  | Request.web req =>
    -- Check if the correct headers are provided
    if (GITLAB_HEADERS.all fun h => (alookup req.headers h).isSome) = false then
      RequestType.invalid
    else
      -- Check if the secret token is correct
      let secretOk : Bool := match p.secret with
        | some secret =>
          match alookup req.headers (strL "X-Gitlab-Token") with
          | some token => decide (token = secret)
          | none => false
        | none => true
      if secretOk = false then RequestType.invalid
      else
        let event := normalize_event_name (alookupD req.headers (strL "X-Gitlab-Event") [])
        -- Check if the event should be accepted
        let eventsOk := match p.events with
          | some events => events.contains event
          | none => true
        if eventsOk = false then RequestType.invalid
        else
          -- Check if the JSON body is valid
          if jsonValid req.body = false then RequestType.invalid
          else RequestType.executeHook

/-- `GitLabProvider::build_env`: set `EVENT` to the normalized event name.
`none` models a panic on a missing header index. -/
def GitLabProvider.build_env (_p : GitLabProvider) (r : Request) (b : EnvBuilder) :
    Option EnvBuilder :=
  match r with
  | Request.status _ => some b
  | Request.web req =>
    match alookup req.headers (strL "X-Gitlab-Event") with
    | some h => some (addEnv b (strL "EVENT") (normalize_event_name h))
    | none => none

/-! ### The Testing provider (`providers/testing.rs`). -/

/-- The Testing provider, carrying its raw configuration string. -/
structure TestingProvider where
  config : Str
deriving DecidableEq

/-- The tail of `TestingProvider::validate`: the `request_type` override
("ping" classifies as `Ping`) and the default `ExecuteHook` result. -/
def testingValidateReqType (req : WebRequest) : Option RequestType :=
  match alookup req.params (strL "request_type") with
  | some rt =>
    if rt = strL "ping" then some RequestType.ping
    else some RequestType.executeHook
  | none => some RequestType.executeHook

/-- The `ip` check of `TestingProvider::validate` and everything after it. -/
def testingValidateIp (req : WebRequest) : Option RequestType :=
  match alookup req.params (strL "ip") with
  | some ip =>
    match ipFromStr ip with
    | none => none  -- `IpAddr::from_str(ip).unwrap()` panics here
    | some addr =>
      if req.source ≠ addr then some RequestType.invalid
      else testingValidateReqType req
  | none => testingValidateReqType req

/-- `TestingProvider::validate`.  The result is `none` exactly when the Rust
code panics: the `ip` parameter is passed to `IpAddr::from_str(ip).unwrap()`,
so an unparseable value aborts instead of classifying. -/
def TestingProvider.validate (_p : TestingProvider) (request : Request) :
    Option RequestType :=
  match request with
  | Request.status _ => some RequestType.invalid
  | Request.web req =>
    -- If the secret param is provided, validate it
    match alookup req.params (strL "secret") with
    | some secret =>
      if secret ≠ strL "testing" then some RequestType.invalid
      else testingValidateIp req
    | none => testingValidateIp req

/-! ### The web front-end (`web.rs`), with the `Hook` type modelled from the
spec (`hooks.rs` is not among the sources). -/

/-- The standalone provider: modelled from the spec (§4.1, `standalone.rs`
is not among the sources): `ExecuteHook` for any `Web` request, `Invalid`
otherwise. -/
def standaloneValidate (request : Request) : RequestType :=
  match request with
  | Request.web _ => RequestType.executeHook
  | Request.status _ => RequestType.invalid

/-- A provider attached to a hook (the registry's non-test providers). -/
inductive Provider where
  | standalone : Provider
  | github (p : GitHubProvider) : Provider
  | gitlab (p : GitLabProvider) : Provider
deriving DecidableEq

/-- Dispatch `validate` over the provider kinds. -/
def Provider.validate (p : Provider) (r : Request) : RequestType :=
  match p with
  | Provider.standalone => standaloneValidate r
  | Provider.github g => g.validate r
  | Provider.gitlab g => g.validate r

/-- Modelled from the spec (§3, §4.6; `hooks.rs` is not among the sources):
a hook binds a script to an ordered list of configured providers. -/
structure Hook where
  name : Str
  providers : List Provider
deriving DecidableEq

/-- Modelled from the spec (§4.6): iterate the providers in order and return
the first one whose classification is not `Invalid`; a hook with zero
providers classifies any `Web` request as `ExecuteHook` (implicit
standalone). -/
def Hook.validate (h : Hook) (r : Request) : Option Provider :=
  match h.providers with
  | [] =>
    match r with
    | Request.web _ => some Provider.standalone
    | Request.status _ => none
  | ps => ps.find? fun p => p.validate r ≠ RequestType.invalid

/-- A queued job: the provider chosen at validation time plus the request. -/
structure Job where
  chosen : Provider
  request : Request
deriving DecidableEq

/-- `web::JsonResponse`. -/
inductive JsonResponse where
  | notFound : JsonResponse
  | forbidden : JsonResponse
  | ok : JsonResponse
  | healthStatus (active_jobs queue_size : Nat) : JsonResponse
deriving DecidableEq

/-- A JSON number with the given natural value (used by health details). -/
def natJson (n : Nat) : Json :=
  Json.num false ((Nat.toDigits 10 n).map fun c => c.toNat - 48) [] false []

/-- `JsonResponse::to_json`: an object carrying a `status` string and, for
health, a `result` object (entries in `BTreeMap` key order). -/
def JsonResponse.to_json : JsonResponse → Json
  | JsonResponse.notFound => Json.obj [(strL "status", Json.str (strL "not_found"))]
  | JsonResponse.forbidden => Json.obj [(strL "status", Json.str (strL "forbidden"))]
  | JsonResponse.ok => Json.obj [(strL "status", Json.str (strL "ok"))]
  | JsonResponse.healthStatus a q =>
    Json.obj [(strL "result",
               Json.obj [(strL "active_jobs", natJson a), (strL "queue_size", natJson q)]),
              (strL "status", Json.str (strL "ok"))]

/-- The `/hook/:hook` route of `WebAPI::configure_nickel`: empty or unknown
hook names fall through to the not-found middleware; a hook that validates
queues one job and answers `200 ok`; a hook that does not validate answers
`403 forbidden` and queues nothing. -/
def handleHookRoute (hooks : List (Str × Hook)) (name : Str) (request : Request) :
    Nat × JsonResponse × List Job :=
  -- Ignore requests without a valid hook
  if name = [] then (404, JsonResponse.notFound, [])
  else
    -- Ignore requests with non-existent hooks
    match alookup hooks name with
    | none => (404, JsonResponse.notFound, [])
    | some hook =>
      match hook.validate request with
      | some jobHook => (200, JsonResponse.ok, [Job.mk jobHook request])
      | none => (403, JsonResponse.forbidden, [])

/-- The `/health` route: forbidden when health reporting is disabled,
otherwise a snapshot of the processor's health details. -/
def handleHealthRoute (enableHealth : Bool) (active_jobs queue_size : Nat) :
    Nat × JsonResponse :=
  if enableHealth then (200, JsonResponse.healthStatus active_jobs queue_size)
  else (403, JsonResponse.forbidden)

/-! ### Helper lemmas. -/

theorem joinChar_splitOnChar (c : Char) (l : Str) :
    joinChar c ((splitOnChar c l).1 :: (splitOnChar c l).2) = l := by
  induction l with
  | nil => rfl
  | cons x xs ih =>
    rcases hs : splitOnChar c xs with ⟨f, r⟩
    rw [hs] at ih
    simp only at ih
    by_cases hx : x = c
    · subst hx
      simp only [splitOnChar, hs, if_pos rfl]
      simpa [joinChar] using ih
    · simp only [splitOnChar, hs, if_neg hx]
      cases r with
      | nil =>
        simp only [joinChar] at ih ⊢
        rw [ih]
      | cons y ys =>
        simp only [joinChar] at ih ⊢
        simp [ih]

theorem splitOnChar_snd_eq_nil (c : Char) (l : Str) :
    (splitOnChar c l).2 = [] ↔ c ∉ l := by
  induction l with
  | nil => simp [splitOnChar]
  | cons x xs ih =>
    rcases hs : splitOnChar c xs with ⟨f, r⟩
    rw [hs] at ih
    simp only at ih
    by_cases hx : x = c
    · subst hx
      simp [splitOnChar, hs]
    · simp only [splitOnChar, hs, if_neg hx, List.mem_cons, not_or]
      rw [ih]
      constructor
      · intro h
        exact ⟨fun hc => hx hc.symm, h⟩
      · intro h
        exact h.2

theorem contains_iff_splitOnChar_snd (c : Char) (l : Str) :
    l.contains c = true ↔ (splitOnChar c l).2 ≠ [] := by
  rw [List.contains, List.elem_iff, Ne, splitOnChar_snd_eq_nil, not_not]

/-- C2: GitHub signature verification accepts exactly the signatures of the
form `sha1=hex` whose hex part decodes to the HMAC-SHA1 of the payload keyed
by the secret; any other raw signature (no `=`, wrong algorithm, non-hex,
or digest mismatch) yields `false`, and with a configured secret a false
verification makes `validate` classify the request as `Invalid`. -/
theorem github_signature_characterization :
    (∀ secret payload raw_signature : Str,
      verify_signature secret payload raw_signature = true ↔
        ∃ hex, raw_signature = strL "sha1=" ++ hex ∧
          from_hex hex = some (hmacSha1 (strBytes secret) (strBytes payload))) ∧
    (∀ (p : GitHubProvider) (req : WebRequest) (secret : Str),
      p.secret = some secret →
      verify_signature secret req.body (alookupD req.headers (strL "X-Hub-Signature") []) = false →
      p.validate (Request.web req) = RequestType.invalid) := by
  constructor
  · intro secret payload raw
    constructor
    · intro h
      unfold verify_signature at h
      by_cases hc : raw.contains '=' = false
      · rw [if_pos hc] at h
        exact absurd h (by simp)
      · rw [if_neg hc] at h
        have hc' : raw.contains '=' = true := by
          cases hcc : raw.contains '=' with
          | false => exact absurd hcc hc
          | true => rfl
        have hsnd := (contains_iff_splitOnChar_snd '=' raw).1 hc'
        rcases hsp : splitOnChar '=' raw with ⟨alg, parts⟩
        rw [hsp] at h hsnd
        simp only at h hsnd
        cases hfh : from_hex (joinChar '=' parts) with
        | none =>
          rw [hfh] at h
          exact absurd h (by simp)
        | some sig =>
          rw [hfh] at h
          have h' : (if alg ≠ strL "sha1" then false
              else decide (hmacSha1 (strBytes secret) (strBytes payload) = sig)) = true := h
          by_cases halg : alg ≠ strL "sha1"
          · rw [if_pos halg] at h'
            exact absurd h' (by simp)
          · rw [if_neg halg] at h'
            push_neg at halg
            have hmac_eq : hmacSha1 (strBytes secret) (strBytes payload) = sig :=
              of_decide_eq_true h'
            refine ⟨joinChar '=' parts, ?_, ?_⟩
            · have hj := joinChar_splitOnChar '=' raw
              rw [hsp] at hj
              simp only at hj
              cases parts with
              | nil => exact absurd rfl hsnd
              | cons y ys =>
                rw [← hj, halg]
                rfl
            · rw [hfh, hmac_eq]
    · rintro ⟨hex, rfl, hfh⟩
      unfold verify_signature
      rcases h2 : splitOnChar '=' hex with ⟨f, r⟩
      have hsp : splitOnChar '=' (strL "sha1=" ++ hex) = (strL "sha1", f :: r) := by
        simp [strL, splitOnChar, h2]
      have hcont : (strL "sha1=" ++ hex).contains '=' = true := by
        rw [contains_iff_splitOnChar_snd, hsp]
        exact List.cons_ne_nil f r
      rw [if_neg (fun hff => by rw [hcont] at hff; exact Bool.noConfusion hff)]
      rw [hsp]
      simp only
      have hjoin : joinChar '=' (f :: r) = hex := by
        have := joinChar_splitOnChar '=' hex
        rw [h2] at this
        exact this
      rw [hjoin, hfh]
      show (if strL "sha1" ≠ strL "sha1" then false
        else decide (hmacSha1 (strBytes secret) (strBytes payload) =
          hmacSha1 (strBytes secret) (strBytes payload))) = true
      rw [if_neg (by simp)]
      simp
  · intro p req secret hsec hver
    unfold GitHubProvider.validate
    cases hH : (GITHUB_HEADERS.all fun h => (alookup req.headers h).isSome) with
    | false => simp [hH]
    | true => simp [hH, hsec, hver]

/-- Witness for the signature claim: the test vector with its first hex digit
changed (`e75e...` instead of `f75e...`) fails verification, and a provider
configured with that secret classifies the request as `Invalid`. -/
theorem github_signature_witness :
    GitHubProvider.validate ⟨some (strL "secret"), none⟩ (Request.web
      { source := IpAddr.v4 127 0 0 1,
        headers := [(strL "X-GitHub-Event", strL "push"),
                    (strL "X-Hub-Signature", strL "sha1=e75efc0f29bf50c23f99b30b86f7c78fdaf5f11d"),
                    (strL "X-GitHub-Delivery", strL "12345")],
        params := [], body := strL "payload" }) = RequestType.invalid :=
  github_signature_characterization.2 _ _ _ rfl (by decide)

/-- The HMAC-SHA1 embedding reproduces the known-good vector from the
source's test suite. -/
theorem verify_signature_known_vector :
    verify_signature (strL "secret") (strL "payload")
      (strL "sha1=f75efc0f29bf50c23f99b30b86f7c78fdaf5f11d") = true := by
  decide

/-- C8: every Web-only provider classifies a synthesized `Status` request as
`Invalid`, so such a request can never be classified `ExecuteHook`. -/
theorem providers_status_request_invalid (se : StatusEvent) (g : GitHubProvider)
    (l : GitLabProvider) (t : TestingProvider) :
    g.validate (Request.status se) = RequestType.invalid ∧
    l.validate (Request.status se) = RequestType.invalid ∧
    t.validate (Request.status se) = some RequestType.invalid :=
  ⟨rfl, rfl, rfl⟩

/-- C10: with no events whitelist configured, the GitLab provider performs no
membership check against `GITLAB_EVENTS`: any event header value at all, with
the secret satisfied and a valid JSON body, classifies as `ExecuteHook`. -/
theorem gitlab_no_whitelist_accepts_any_event (p : GitLabProvider) (req : WebRequest)
    (hwl : p.events = none)
    (hev : (alookup req.headers (strL "X-Gitlab-Event")).isSome = true)
    (hsec : p.secret = none ∨ ∃ s, p.secret = some s ∧
      alookup req.headers (strL "X-Gitlab-Token") = some s)
    (hjson : jsonValid req.body = true) :
    p.validate (Request.web req) = RequestType.executeHook := by
  rcases hsec with h | ⟨s, hs, ht⟩
  · simp [GitLabProvider.validate, GITLAB_HEADERS, hev, hwl, hjson, h]
  · simp [GitLabProvider.validate, GITLAB_HEADERS, hev, hwl, hjson, hs, ht]

/-- Witness for the no-whitelist claim: the unknown event `Strange Hook` is
accepted when no whitelist is configured. -/
theorem gitlab_no_whitelist_witness :
    GitLabProvider.validate ⟨none, none⟩ (Request.web
      { source := IpAddr.v4 127 0 0 1,
        headers := [(strL "X-Gitlab-Event", strL "Strange Hook")],
        params := [], body := strL "\x7b\x7d" }) = RequestType.executeHook :=
  gitlab_no_whitelist_accepts_any_event _ _ rfl (by decide) (Or.inl rfl) (by decide)

/-- C1: for a Web request, GitHub validation returns `Invalid` unless all
three headers are present, the optional signature check passes, the event is
`ping` or in the fixed set, the event passes the optional whitelist (`ping`
always does), and the body is valid JSON; when everything holds, `ping`
classifies as `Ping` and every other event as `ExecuteHook`.  `Status`
requests are `Invalid` (see the status-request theorem). -/
theorem github_validate_characterization (p : GitHubProvider) (req : WebRequest) :
    GitHubProvider.validate p (Request.web req) =
      (if ((GITHUB_HEADERS.all fun h => (alookup req.headers h).isSome)
            && (match p.secret with
                | some secret =>
                  verify_signature secret req.body (alookupD req.headers (strL "X-Hub-Signature") [])
                | none => true)
            && (GITHUB_EVENTS.contains (alookupD req.headers (strL "X-GitHub-Event") [])
                || alookupD req.headers (strL "X-GitHub-Event") [] = strL "ping")
            && (match p.events with
                | some events =>
                  (events.contains (alookupD req.headers (strL "X-GitHub-Event") [])
                   || alookupD req.headers (strL "X-GitHub-Event") [] = strL "ping" : Bool)
                | none => true)
            && jsonValid req.body) = true
       then (if alookupD req.headers (strL "X-GitHub-Event") [] = strL "ping"
             then RequestType.ping else RequestType.executeHook)
       else RequestType.invalid) := by
  rcases p with ⟨psec, pevs⟩
  rcases psec with _ | sec <;> rcases pevs with _ | evs <;>
    simp only [GitHubProvider.validate] <;>
    cases hH : (GITHUB_HEADERS.all fun h => (alookup req.headers h).isSome) <;>
    simp [hH] <;>
    split_ifs <;> simp_all

/-- C6: for a Web request, GitLab validation returns `Invalid` unless the
`X-Gitlab-Event` header is present, the optional secret matches the
`X-Gitlab-Token` header byte-for-byte, the normalized event passes the
optional whitelist, and the body is valid JSON; in every remaining case the
result is `ExecuteHook` — never `Ping`. -/
theorem gitlab_validate_characterization (p : GitLabProvider) (req : WebRequest) :
    GitLabProvider.validate p (Request.web req) =
      (if ((GITLAB_HEADERS.all fun h => (alookup req.headers h).isSome)
            && (match p.secret with
                | some secret =>
                  match alookup req.headers (strL "X-Gitlab-Token") with
                  | some token => decide (token = secret)
                  | none => false
                | none => true)
            && (match p.events with
                | some events =>
                  events.contains
                    (normalize_event_name (alookupD req.headers (strL "X-Gitlab-Event") []))
                | none => true)
            && jsonValid req.body) = true
       then RequestType.executeHook
       else RequestType.invalid) ∧
    GitLabProvider.validate p (Request.web req) ≠ RequestType.ping := by
  have main : GitLabProvider.validate p (Request.web req) =
      (if ((GITLAB_HEADERS.all fun h => (alookup req.headers h).isSome)
            && (match p.secret with
                | some secret =>
                  match alookup req.headers (strL "X-Gitlab-Token") with
                  | some token => decide (token = secret)
                  | none => false
                | none => true)
            && (match p.events with
                | some events =>
                  events.contains
                    (normalize_event_name (alookupD req.headers (strL "X-Gitlab-Event") []))
                | none => true)
            && jsonValid req.body) = true
       then RequestType.executeHook
       else RequestType.invalid) := by
    rcases p with ⟨psec, pevs⟩
    rcases psec with _ | sec <;> rcases pevs with _ | evs <;>
      simp only [GitLabProvider.validate] <;>
      cases hH : (GITLAB_HEADERS.all fun h => (alookup req.headers h).isSome) <;>
      cases hT : alookup req.headers (strL "X-Gitlab-Token") <;>
      simp [hH, hT] <;>
      first
        | rfl
        | (split_ifs <;> simp_all)
  refine ⟨main, ?_⟩
  rw [main]
  split_ifs <;> simp

/-- C7: event-name normalization strips exactly one trailing `" Hook"`
suffix and leaves every other string unchanged, and GitLab `build_env` sets
`EVENT` to exactly the normalized header value. -/
theorem gitlab_normalize_strips_one_hook :
    (∀ s : Str, normalize_event_name s =
       if (strL " Hook").isSuffixOf s then s.take (s.length - 5) else s) ∧
    normalize_event_name (strL "Push Hook") = strL "Push" ∧
    normalize_event_name (strL "Push Hook Hook") = strL "Push Hook" ∧
    normalize_event_name (strL "Push") = strL "Push" ∧
    (∀ (p : GitLabProvider) (req : WebRequest) (ev : Str),
      alookup req.headers (strL "X-Gitlab-Event") = some ev →
      p.build_env (Request.web req) [] = some [(strL "EVENT", normalize_event_name ev)]) := by
  refine ⟨?_, by decide, by decide, by decide, ?_⟩
  · intro s
    by_cases h : (strL " Hook").isSuffixOf s = true
    · obtain ⟨t, ht⟩ := List.isSuffixOf_iff_suffix.1 h
      subst ht
      unfold normalize_event_name
      rw [if_pos h, if_pos h]
      have h5 : (t ++ strL " Hook").length - 5 = t.length := by
        simp [strL]
      rw [h5, List.take_left' rfl]
      have hrev : (t ++ strL " Hook").reverse = 'k' :: 'o' :: 'o' :: 'H' :: ' ' :: t.reverse := by
        simp [strL]
      rw [hrev]
      simp [List.dropWhile_cons]
    · unfold normalize_event_name
      rw [if_neg h, if_neg h]
  · intro p req ev hev
    simp [GitLabProvider.build_env, hev, addEnv]

/-- Witness for the normalization claim: `build_env` on a request carrying
`X-Gitlab-Event: Push Hook` produces exactly `EVENT=Push`. -/
theorem gitlab_build_env_witness :
    GitLabProvider.build_env ⟨none, none⟩ (Request.web
      { source := IpAddr.v4 127 0 0 1,
        headers := [(strL "X-Gitlab-Event", strL "Push Hook")],
        params := [], body := strL "\x7b\"a\": \"b\"\x7d" }) [] =
      some [(strL "EVENT", strL "Push")] := by
  have h := gitlab_normalize_strips_one_hook.2.2.2.2 (⟨none, none⟩ : GitLabProvider)
    { source := IpAddr.v4 127 0 0 1,
      headers := [(strL "X-Gitlab-Event", strL "Push Hook")],
      params := [], body := strL "\x7b\"a\": \"b\"\x7d" } (strL "Push Hook") rfl
  rw [(by decide : normalize_event_name (strL "Push Hook") = strL "Push")] at h
  exact h

/-- Counterexample to the claim that the Testing provider classifies every
Web request carrying an `ip` parameter without failing: with the unparseable
value `nonsense` the source executes `IpAddr::from_str(ip).unwrap()`, which
panics (modelled by `none`) instead of returning a classification. -/
theorem testing_validate_unparseable_ip_panics :
    TestingProvider.validate ⟨[]⟩ (Request.web
      { source := IpAddr.v4 127 0 0 1, headers := [],
        params := [(strL "ip", strL "nonsense")], body := [] }) = none := by
  decide

/-- C3 (amended): the Testing provider classifies without failing every Web
request whose `ip` parameter, when present, parses as an IP address, and it
returns `Invalid` whenever the parsed `ip` parameter differs from the source
address; an unparseable `ip` parameter panics instead (see the
counterexample). -/
theorem testing_validate_classifies (p : TestingProvider) (req : WebRequest) :
    ((∀ ip, alookup req.params (strL "ip") = some ip → (ipFromStr ip).isSome = true) →
      (p.validate (Request.web req)).isSome = true) ∧
    (∀ ip addr, alookup req.params (strL "ip") = some ip →
      ipFromStr ip = some addr → req.source ≠ addr →
      p.validate (Request.web req) = some RequestType.invalid) := by
  have hRT : ∀ r : WebRequest, (testingValidateReqType r).isSome = true := by
    intro r
    unfold testingValidateReqType
    cases alookup r.params (strL "request_type") with
    | none => rfl
    | some rt =>
      simp only
      split <;> rfl
  constructor
  · intro hip
    have hIp : (testingValidateIp req).isSome = true := by
      unfold testingValidateIp
      cases hi : alookup req.params (strL "ip") with
      | none => exact hRT req
      | some ip =>
        obtain ⟨addr, haddr⟩ := Option.isSome_iff_exists.1 (hip ip hi)
        simp only [haddr]
        split
        · rfl
        · exact hRT req
    simp only [TestingProvider.validate]
    cases hs : alookup req.params (strL "secret") with
    | none =>
      simp only [hs]
      exact hIp
    | some secret =>
      simp only [hs]
      split
      · rfl
      · exact hIp
  · intro ip addr hi ha hne
    have hIp : testingValidateIp req = some RequestType.invalid := by
      unfold testingValidateIp
      simp only [hi, ha]
      rw [if_pos hne]
    simp only [TestingProvider.validate]
    cases hs : alookup req.params (strL "secret") with
    | none =>
      simp only [hs]
      exact hIp
    | some secret =>
      simp only [hs]
      split
      · rfl
      · exact hIp

/-- Witness for the amended Testing-provider claim: a parseable `ip`
parameter that differs from the source address classifies as `Invalid`. -/
theorem testing_validate_witness :
    TestingProvider.validate ⟨[]⟩ (Request.web
      { source := IpAddr.v4 127 2 2 2, headers := [],
        params := [(strL "ip", strL "127.1.1.1")], body := [] }) =
      some RequestType.invalid :=
  (testing_validate_classifies _ _).2 (strL "127.1.1.1") (IpAddr.v4 127 1 1 1)
    rfl (by decide) (by decide)

/-- C4: with the GitHub headers present, `build_env` always emits `EVENT`
and `DELIVERY_ID` from the headers, and emits `PUSH_REF`/`PUSH_HEAD` from
the body exactly when the event is `push`, an events whitelist is configured
and it contains `push`; in every other case the two push variables are
absent (and a body that does not deserialize as a push event propagates an
error). -/
theorem github_build_env_push_whitelist (p : GitHubProvider) (req : WebRequest)
    (ev del : Str)
    (hev : alookup req.headers (strL "X-GitHub-Event") = some ev)
    (hdel : alookup req.headers (strL "X-GitHub-Delivery") = some del) :
    (((p.events.map fun e => e.contains ev).getD false) ∧ ev = strL "push" →
      (∀ gitRef headId, parsePushEvent req.body = some (gitRef, headId) →
        p.build_env (Request.web req) [] =
          some (Except.ok [(strL "EVENT", ev), (strL "DELIVERY_ID", del),
                           (strL "PUSH_REF", gitRef), (strL "PUSH_HEAD", headId)])) ∧
      (parsePushEvent req.body = none →
        p.build_env (Request.web req) [] = some (Except.error ()))) ∧
    (¬ (((p.events.map fun e => e.contains ev).getD false) ∧ ev = strL "push") →
      p.build_env (Request.web req) [] =
        some (Except.ok [(strL "EVENT", ev), (strL "DELIVERY_ID", del)])) := by
  constructor
  · intro hcond
    constructor
    · intro gitRef headId hparse
      simp only [GitHubProvider.build_env, hev, hdel]
      rw [if_pos hcond]
      simp only [hparse]
      rfl
    · intro hparse
      simp only [GitHubProvider.build_env, hev, hdel]
      rw [if_pos hcond]
      simp only [hparse]
  · intro hcond
    simp only [GitHubProvider.build_env, hev, hdel]
    rw [if_neg hcond]
    rfl

/-- Witness for the push-env claim: with whitelist `["push"]` and a push
body, all four variables appear with the body's `ref` and `head_commit.id`. -/
theorem github_build_env_witness :
    GitHubProvider.build_env ⟨none, some [strL "push"]⟩ (Request.web
      { source := IpAddr.v4 127 0 0 1,
        headers := [(strL "X-GitHub-Event", strL "push"),
                    (strL "X-GitHub-Delivery", strL "12345")],
        params := [],
        body := strL "\x7b\"ref\": \"refs/heads/master\", \"head_commit\": \x7b\"id\": \"deadbeef\"\x7d\x7d" }) []
    = some (Except.ok [(strL "EVENT", strL "push"), (strL "DELIVERY_ID", strL "12345"),
                       (strL "PUSH_REF", strL "refs/heads/master"),
                       (strL "PUSH_HEAD", strL "deadbeef")]) :=
  ((github_build_env_push_whitelist ⟨none, some [strL "push"]⟩
      { source := IpAddr.v4 127 0 0 1,
        headers := [(strL "X-GitHub-Event", strL "push"),
                    (strL "X-GitHub-Delivery", strL "12345")],
        params := [],
        body := strL "\x7b\"ref\": \"refs/heads/master\", \"head_commit\": \x7b\"id\": \"deadbeef\"\x7d\x7d" }
      (strL "push") (strL "12345") rfl rfl).1 (by decide)).1
    (strL "refs/heads/master") (strL "deadbeef") (by decide)

/-- Counterexample to the event-set cardinality: `GITHUB_EVENTS` has 29
entries (among them the misspelled `pull_reques_review_comment`), not 27. -/
theorem github_events_not_27 :
    GITHUB_EVENTS.length = 29 ∧ ¬ GITHUB_EVENTS.length = 27 := by decide

/-- C5 (amended): `GitHubProvider::new` succeeds on a parsed configuration
whose optional `events` list is a subset of the fixed 29-event set, and
fails with `ProviderGitHubInvalidEventName` naming an offending event for
every configuration listing an event outside that set. -/
theorem github_new_checks_events :
    GITHUB_EVENTS.length = 29 ∧
    ∀ (input : Str) (secret : Option Str) (events : Option (List Str)),
      parseProviderConfig input = some (secret, events) →
      ((events = none → GitHubProvider.new input = Except.ok ⟨secret, events⟩) ∧
       (∀ evs, events = some evs →
          (∀ e ∈ evs, GITHUB_EVENTS.contains e = true) →
          GitHubProvider.new input = Except.ok ⟨secret, events⟩) ∧
       (∀ evs e, events = some evs → e ∈ evs → GITHUB_EVENTS.contains e = false →
          ∃ bad, bad ∈ evs ∧ GITHUB_EVENTS.contains bad = false ∧
            GitHubProvider.new input = Except.error
              (FisherError.providerGitHubInvalidEventName bad))) := by
  refine ⟨by decide, ?_⟩
  intro input secret events hparse
  refine ⟨?_, ?_, ?_⟩
  · intro hnone
    subst hnone
    simp only [GitHubProvider.new, hparse]
  · intro evs hsome hall
    subst hsome
    simp only [GitHubProvider.new, hparse]
    split
    next bad hfind =>
      have hmem := List.mem_of_find?_eq_some hfind
      have hp := List.find?_some hfind
      simp only [decide_eq_true_eq] at hp
      have hin := hall bad hmem
      rw [hin] at hp
      exact absurd hp (by decide)
    next hfind => rfl
  · intro evs e hsome hmem hbad
    subst hsome
    simp only [GitHubProvider.new, hparse]
    split
    next bad hfind =>
      have hmem2 := List.mem_of_find?_eq_some hfind
      have hp := List.find?_some hfind
      simp only [decide_eq_true_eq] at hp
      exact ⟨bad, hmem2, hp, rfl⟩
    next hfind =>
      rw [List.find?_eq_none] at hfind
      have hcontra := hfind e hmem
      simp only [decide_eq_true_eq] at hcontra
      exact absurd hbad hcontra

/-- Witness for the config-validation claim: a whitelist made of known
events is accepted. -/
theorem github_new_witness :
    GitHubProvider.new (strL "\x7b\"events\": [\"push\", \"fork\"]\x7d") =
      Except.ok ⟨none, some [strL "push", strL "fork"]⟩ :=
  (github_new_checks_events.2 (strL "\x7b\"events\": [\"push\", \"fork\"]\x7d")
      none (some [strL "push", strL "fork"]) (by decide)).2.1
      [strL "push", strL "fork"] rfl (by decide)

/-- C9: the web front-end's failure mapping — an unknown hook name answers
`404` with body `{"status":"not_found"}` (written here with the constructor
`JsonResponse.notFound`); a hook whose validation fails answers `403` with
body `{"status":"forbidden"}` and sends no job to the processor; and
`GET /health` with health disabled answers `403 {"status":"forbidden"}`. -/
theorem web_failure_responses :
    (∀ (hooks : List (Str × Hook)) (name : Str) (r : Request),
      alookup hooks name = none →
      handleHookRoute hooks name r = (404, JsonResponse.notFound, [])) ∧
    (∀ (hooks : List (Str × Hook)) (name : Str) (hook : Hook) (r : Request),
      name ≠ [] → alookup hooks name = some hook → hook.validate r = none →
      handleHookRoute hooks name r = (403, JsonResponse.forbidden, [])) ∧
    (∀ active_jobs queue_size : Nat,
      handleHealthRoute false active_jobs queue_size = (403, JsonResponse.forbidden)) ∧
    JsonResponse.notFound.to_json = Json.obj [(strL "status", Json.str (strL "not_found"))] ∧
    JsonResponse.forbidden.to_json = Json.obj [(strL "status", Json.str (strL "forbidden"))] := by
  refine ⟨?_, ?_, fun a q => rfl, rfl, rfl⟩
  · intro hooks name r hnone
    unfold handleHookRoute
    by_cases hn : name = []
    · rw [if_pos hn]
    · rw [if_neg hn]
      simp only [hnone]
  · intro hooks name hook r hn hfound hval
    unfold handleHookRoute
    rw [if_neg hn]
    simp only [hfound, hval]

/-- Witness for the web failure mapping: an empty hooks map answers `404`, a
GitHub hook rejecting a header-less request answers `403` with no job, and
disabled health answers `403`. -/
theorem web_failure_witness :
    handleHookRoute [] (strL "hk")
      (Request.web { source := IpAddr.v4 127 0 0 1, headers := [], params := [], body := [] })
      = (404, JsonResponse.notFound, []) ∧
    handleHookRoute [(strL "hk", ⟨strL "hk", [Provider.github ⟨none, none⟩]⟩)] (strL "hk")
      (Request.web { source := IpAddr.v4 127 0 0 1, headers := [], params := [], body := [] })
      = (403, JsonResponse.forbidden, []) ∧
    handleHealthRoute false 0 0 = (403, JsonResponse.forbidden) :=
  ⟨web_failure_responses.1 [] (strL "hk") _ rfl,
   web_failure_responses.2.1 [(strL "hk", ⟨strL "hk", [Provider.github ⟨none, none⟩]⟩)]
     (strL "hk") ⟨strL "hk", [Provider.github ⟨none, none⟩]⟩ _ (by decide) rfl (by decide),
   web_failure_responses.2.2.1 0 0⟩
